import Mathlib

/-!
# run-mobileproxy: the in-memory strategy cache and the start-up sequence

A verification development for `x/examples/run-mobileproxy/main.go`.

* `memoryStrategyCache`, `MemoryStrategyCache`, `Get`, `Put` embed the map-backed
  strategy cache.  A Go `map[string]string` is a finite map with unique keys; it is
  embedded as a `Finmap`, so two cache states are equal exactly when they hold the
  same key/value pairs.  The field `mu` only serialises callers and carries no data,
  so the sequential embedding has the single field `data`.
* `main` embeds the start-up sequence as a function from the flag values and the
  behaviour of the `mobileproxy` package to the list of calls made and the way the
  process ends.
-/

set_option autoImplicit false

namespace RunMobileproxy

/-! ## The strategy cache -/

/-- The Go type `map[string]string`. -/
abbrev GoMap := Finmap (fun _ : String => String)

/-- State of a `memoryStrategyCache`: the contents of its `data` map.  Every cache is
built by `MemoryStrategyCache`, which allocates the map with `make`, so `data` is
never the nil map. -/
structure memoryStrategyCache where
  data : GoMap

/-- The constructor `MemoryStrategyCache()`: `data: make(map[string]string)`. -/
def MemoryStrategyCache : memoryStrategyCache :=
  { data := ∅ }

/-- The Go index expression `m[key]` on a `map[string]string`: the stored value, or
the zero value `""` when the key is not in the map. -/
def index (m : GoMap) (key : String) : String :=
  match m.lookup key with
  | some value => value
  | none => ""

/-- The method `Get`: `return c.data[key]`.  The result is the returned string paired
with the cache state after the call. -/
def Get (c : memoryStrategyCache) (key : String) : String × memoryStrategyCache :=
  (index c.data key, c)

/-- The method `Put`: `delete(c.data, key)` when `value == ""`, and
`c.data[key] = value` otherwise.  The result is the cache state after the call. -/
def Put (c : memoryStrategyCache) (key : String) (value : String) : memoryStrategyCache :=
  if value = "" then
    { data := c.data.erase key }
  else
    { data := c.data.insert key value }

/-- One call on a cache, as issued by a client. -/
inductive CacheCall where
  | get (key : String)
  | put (key : String) (value : String)
  deriving DecidableEq, Repr

/-- The cache state after one client call. -/
def CacheCall.apply (c : memoryStrategyCache) : CacheCall → memoryStrategyCache
  | .get key => (Get c key).2
  | .put key value => Put c key value

/-- The cache state after a finite sequence of client calls, issued in order. -/
def runCalls (c : memoryStrategyCache) (calls : List CacheCall) : memoryStrategyCache :=
  calls.foldl CacheCall.apply c

/-- The cache state after a finite sequence of `Put` calls, issued in order. -/
def runPuts (c : memoryStrategyCache) (puts : List (String × String)) : memoryStrategyCache :=
  puts.foldl (fun s p => Put s p.1 p.2) c

/-- No key of `data` is mapped to the empty string. -/
def NoEmptyValue (c : memoryStrategyCache) : Prop :=
  ∀ key : String, c.data.lookup key ≠ some ""

/-! ## The start-up sequence -/

/-- The flag values read by `main` after `flag.Parse()`; each field is the value of
the flag of the same name (`domain` is the one held in `hostFlag`, `proxyPath` the
one held in `urlProxyPrefixFlag`). -/
structure Flags where
  transport : String
  domain : String
  smart : String
  cache : String
  localAddr : String
  proxyPath : String
  deriving DecidableEq, Repr

/-- The part of package `mobileproxy` that `main` calls.  The package is imported, so
its behaviour is a parameter: `StringList`, `Options`, `Dialer`, `Proxy` and `Err` are
the types of its values, a call that returns `(value, error)` is a function into
`Except`, and `SetStrategyCache`, which updates its receiver, returns the updated
options. -/
structure Mobileproxy (StringList Options Dialer Proxy Err : Type) where
  NewListFromLines : String → StringList
  NewSmartDialerOptions : StringList → String → Options
  SetStrategyCache : Options → memoryStrategyCache → Options
  NewStreamDialer : Options → Except Err Dialer
  NewStreamDialerFromConfig : String → Except Err Dialer
  RunProxy : String → Dialer → Except Err Proxy
  TransportConfig : Dialer → String
  Address : Proxy → String

/-- A call made by `main`, with its receiver and arguments, in the order of the Go
argument lists.  `Receive` is the channel receive `<-sig`. -/
inductive Call (StringList Options Dialer Proxy Err : Type) where
  | NewListFromLines (lines : String)
  | NewSmartDialerOptions (testDomains : StringList) (config : String)
  | MemoryStrategyCache
  | SetStrategyCache (receiver : Options) (cache : memoryStrategyCache)
  | NewStreamDialer (receiver : Options)
  | NewStreamDialerFromConfig (config : String)
  | Fatalf (format : String) (err : Err)
  | RunProxy (addr : String) (dialer : Dialer)
  | AddURLProxy (receiver : Proxy) (path : String) (dialer : Dialer)
  | Printf (format : String) (arg : String)
  | Address (receiver : Proxy)
  | Notify
  | Receive
  | Print (message : String)
  | Stop (receiver : Proxy) (timeoutSeconds : Nat)

/-- How a run of `main` ends: the process exits with a status (`log.Fatalf` exits
with status 1, returning from `main` with status 0), or it stays blocked in `<-sig`
because no interrupt is ever delivered. -/
inductive Exit where
  | exit (status : Nat)
  | blocked
  deriving DecidableEq, Repr

section Startup

variable {StringList Options Dialer Proxy Err : Type}

/-- Calls that belong to the smart construction path. -/
def Call.onSmartPath : Call StringList Options Dialer Proxy Err → Bool
  | .NewListFromLines _ => true
  | .NewSmartDialerOptions _ _ => true
  | .MemoryStrategyCache => true
  | .SetStrategyCache _ _ => true
  | .NewStreamDialer _ => true
  | _ => false

/-- Calls that construct a dialer: `NewStreamDialer` on smart-dialer options, or
`NewStreamDialerFromConfig`. -/
def Call.constructsDialer : Call StringList Options Dialer Proxy Err → Bool
  | .NewStreamDialer _ => true
  | .NewStreamDialerFromConfig _ => true
  | _ => false

/-- Calls that use a dialer or a proxy after construction. -/
def Call.usesProxy : Call StringList Options Dialer Proxy Err → Bool
  | .RunProxy _ _ => true
  | .AddURLProxy _ _ _ => true
  | .Address _ => true
  | .Stop _ _ => true
  | _ => false

/-- Lines 61-72 of `main`: the `if *smartFlag != ""` statement that assigns
`dialer, err`.  The result is the list of calls made and the pair assigned. -/
def mainDialer (m : Mobileproxy StringList Options Dialer Proxy Err) (f : Flags) :
    List (Call StringList Options Dialer Proxy Err) × Except Err Dialer :=
  if f.smart ≠ "" then
    let testDomains := m.NewListFromLines f.domain
    let sdOptions := m.NewSmartDialerOptions testDomains f.transport
    if f.cache ≠ "" then
      let sdOptions' := m.SetStrategyCache sdOptions MemoryStrategyCache
      ([.NewListFromLines f.domain, .NewSmartDialerOptions testDomains f.transport,
        .MemoryStrategyCache, .SetStrategyCache sdOptions MemoryStrategyCache,
        .NewStreamDialer sdOptions'],
       m.NewStreamDialer sdOptions')
    else
      ([.NewListFromLines f.domain, .NewSmartDialerOptions testDomains f.transport,
        .NewStreamDialer sdOptions],
       m.NewStreamDialer sdOptions)
  else
    ([.NewStreamDialerFromConfig f.transport], m.NewStreamDialerFromConfig f.transport)

/-- The function `main`, from the flag values, the behaviour of `mobileproxy` and
whether an interrupt is ever delivered on `sig`, to the calls made in order and the
way the process ends. -/
def main (m : Mobileproxy StringList Options Dialer Proxy Err) (f : Flags)
    (interrupt : Bool) : List (Call StringList Options Dialer Proxy Err) × Exit :=
  let built := mainDialer m f
  match built.2 with
  | .error err =>
    (built.1 ++ [.Fatalf "NewStreamDialerFromConfig failed: %v" err], .exit 1)
  | .ok dialer =>
    match m.RunProxy f.localAddr dialer with
    | .error err =>
      (built.1 ++ [.RunProxy f.localAddr dialer, .Fatalf "RunProxy failed: %v" err],
       .exit 1)
    | .ok proxy =>
      let mounted : List (Call StringList Options Dialer Proxy Err) :=
        if f.proxyPath ≠ "" then [.AddURLProxy proxy f.proxyPath dialer] else []
      let started : List (Call StringList Options Dialer Proxy Err) :=
        built.1 ++ [.RunProxy f.localAddr dialer] ++ mounted ++
          [.Printf "TLS Transport: %s" (m.TransportConfig dialer),
           .Address proxy,
           .Printf "Proxy listening on %v" (m.Address proxy),
           .Notify,
           .Receive]
      if interrupt then
        (started ++ [.Print "Shutting down", .Stop proxy 2], .exit 0)
      else
        (started, .blocked)

/-- The calls of `main` after the construction step, when both the construction and
`RunProxy` succeed. -/
def startedCalls (m : Mobileproxy StringList Options Dialer Proxy Err) (f : Flags)
    (interrupt : Bool) (dialer : Dialer) (proxy : Proxy) :
    List (Call StringList Options Dialer Proxy Err) :=
  [.RunProxy f.localAddr dialer] ++
    (if f.proxyPath ≠ "" then [.AddURLProxy proxy f.proxyPath dialer] else []) ++
    [.Printf "TLS Transport: %s" (m.TransportConfig dialer),
     .Address proxy,
     .Printf "Proxy listening on %v" (m.Address proxy),
     .Notify,
     .Receive] ++
    (if interrupt then [.Print "Shutting down", .Stop proxy 2] else [])

end Startup

/-- A concrete behaviour of `mobileproxy`, used to instantiate the start-up theorems:
a string list is its source text, options are the test domains, the configuration
and the attached cache, construction fails on an empty configuration, and binding
fails on an empty address. -/
def sampleMobileproxy :
    Mobileproxy String (String × String × Option memoryStrategyCache) String String String where
  NewListFromLines := fun lines => lines
  NewSmartDialerOptions := fun testDomains config => (testDomains, config, none)
  SetStrategyCache := fun opts cache => (opts.1, opts.2.1, some cache)
  NewStreamDialer := fun opts =>
    if opts.2.1 = "" then .error "no viable strategy" else .ok opts.2.1
  NewStreamDialerFromConfig := fun config =>
    if config = "" then .error "bad config" else .ok config
  RunProxy := fun addr _ => if addr = "" then .error "bind failed" else .ok addr
  TransportConfig := fun dialer => dialer
  Address := fun proxy => proxy

/-- Sample flag values. -/
def sampleFlags (smart cache transport : String) : Flags :=
  { transport := transport, domain := "example.com", smart := smart, cache := cache,
    localAddr := "localhost:8080", proxyPath := "/proxy" }

/-! ## Basic facts about `index`, `Get` and `Put` -/

theorem index_of_lookup_some {m : GoMap} {key value : String}
    (h : m.lookup key = some value) : index m key = value := by
  simp [index, h]

theorem index_of_not_mem {m : GoMap} {key : String} (h : key ∉ m) : index m key = "" := by
  have h' : m.lookup key = none := Finmap.lookup_eq_none.mpr h
  simp [index, h']

theorem Put_data_empty (c : memoryStrategyCache) (key : String) :
    (Put c key "").data = c.data.erase key := by
  simp [Put]

theorem Put_data_nonempty (c : memoryStrategyCache) (key : String) {value : String}
    (h : value ≠ "") : (Put c key value).data = c.data.insert key value := by
  simp [Put, h]

theorem lookup_Put_self (c : memoryStrategyCache) (key value : String) :
    (Put c key value).data.lookup key = if value = "" then none else some value := by
  by_cases h : value = ""
  · subst h
    rw [Put_data_empty]
    simp
  · rw [Put_data_nonempty c key h]
    simp [h]

theorem lookup_Put_of_ne (c : memoryStrategyCache) {key other : String} (value : String)
    (h : other ≠ key) : (Put c key value).data.lookup other = c.data.lookup other := by
  by_cases hv : value = ""
  · subst hv
    rw [Put_data_empty]
    exact Finmap.lookup_erase_ne h
  · rw [Put_data_nonempty c key hv]
    exact Finmap.lookup_insert_of_ne _ h

theorem memoryStrategyCache.ext_lookup {c₁ c₂ : memoryStrategyCache}
    (h : ∀ key, c₁.data.lookup key = c₂.data.lookup key) : c₁ = c₂ := by
  cases c₁
  cases c₂
  congr
  exact Finmap.ext_lookup h

theorem NoEmptyValue_init : NoEmptyValue MemoryStrategyCache := by
  intro key
  simp [MemoryStrategyCache]

theorem NoEmptyValue_Put {c : memoryStrategyCache} (key value : String)
    (h : NoEmptyValue c) : NoEmptyValue (Put c key value) := by
  intro other
  by_cases ho : other = key
  · subst ho
    rw [lookup_Put_self]
    by_cases hv : value = ""
    · simp [hv]
    · simp only [hv, if_false]
      intro hs
      exact hv (Option.some.inj hs)
  · rw [lookup_Put_of_ne c value ho]
    exact h other

theorem NoEmptyValue_Get {c : memoryStrategyCache} (key : String)
    (h : NoEmptyValue c) : NoEmptyValue (Get c key).2 := h

theorem NoEmptyValue_apply {c : memoryStrategyCache} (call : CacheCall)
    (h : NoEmptyValue c) : NoEmptyValue (call.apply c) := by
  cases call with
  | get key => exact NoEmptyValue_Get key h
  | put key value => exact NoEmptyValue_Put key value h

theorem NoEmptyValue_runCalls (calls : List CacheCall) :
    ∀ c : memoryStrategyCache, NoEmptyValue c → NoEmptyValue (runCalls c calls) := by
  induction calls with
  | nil => intro c h; exact h
  | cons call rest ih =>
    intro c h
    exact ih (call.apply c) (NoEmptyValue_apply call h)

theorem lookup_runPuts_of_unused (puts : List (String × String)) (key : String)
    (h : ∀ p ∈ puts, p.1 ≠ key) :
    ∀ c : memoryStrategyCache, (runPuts c puts).data.lookup key = c.data.lookup key := by
  induction puts with
  | nil => intro c; rfl
  | cons p rest ih =>
    intro c
    have hp : key ≠ p.1 := fun e => h p (List.mem_cons_self _ _) e.symm
    have hrest : ∀ q ∈ rest, q.1 ≠ key := fun q hq => h q (List.mem_cons_of_mem _ hq)
    show (runPuts (Put c p.1 p.2) rest).data.lookup key = c.data.lookup key
    rw [ih hrest (Put c p.1 p.2), lookup_Put_of_ne c p.2 hp]

/-! ## Basic facts about `main` -/

section StartupFacts

variable {StringList Options Dialer Proxy Err : Type}

theorem mainDialer_smart_cache (m : Mobileproxy StringList Options Dialer Proxy Err)
    (f : Flags) (hs : f.smart ≠ "") (hc : f.cache ≠ "") :
    mainDialer m f =
      ([.NewListFromLines f.domain,
        .NewSmartDialerOptions (m.NewListFromLines f.domain) f.transport,
        .MemoryStrategyCache,
        .SetStrategyCache (m.NewSmartDialerOptions (m.NewListFromLines f.domain) f.transport)
          MemoryStrategyCache,
        .NewStreamDialer (m.SetStrategyCache
          (m.NewSmartDialerOptions (m.NewListFromLines f.domain) f.transport)
          MemoryStrategyCache)],
       m.NewStreamDialer (m.SetStrategyCache
          (m.NewSmartDialerOptions (m.NewListFromLines f.domain) f.transport)
          MemoryStrategyCache)) := by
  simp [mainDialer, hs, hc]

theorem mainDialer_smart_nocache (m : Mobileproxy StringList Options Dialer Proxy Err)
    (f : Flags) (hs : f.smart ≠ "") (hc : f.cache = "") :
    mainDialer m f =
      ([.NewListFromLines f.domain,
        .NewSmartDialerOptions (m.NewListFromLines f.domain) f.transport,
        .NewStreamDialer (m.NewSmartDialerOptions (m.NewListFromLines f.domain) f.transport)],
       m.NewStreamDialer
         (m.NewSmartDialerOptions (m.NewListFromLines f.domain) f.transport)) := by
  simp [mainDialer, hs, hc]

theorem mainDialer_direct (m : Mobileproxy StringList Options Dialer Proxy Err)
    (f : Flags) (hs : f.smart = "") :
    mainDialer m f =
      ([.NewStreamDialerFromConfig f.transport], m.NewStreamDialerFromConfig f.transport) := by
  simp [mainDialer, hs]

/-- The construction step makes exactly one dialer-constructing call and no call
that uses a dialer or a proxy. -/
theorem mainDialer_calls (m : Mobileproxy StringList Options Dialer Proxy Err) (f : Flags) :
    ((mainDialer m f).1.filter Call.constructsDialer).length = 1 ∧
    ∀ c ∈ (mainDialer m f).1, c.usesProxy = false := by
  by_cases hs : f.smart = ""
  · rw [mainDialer_direct m f hs]
    simp [Call.constructsDialer, Call.usesProxy]
  · by_cases hc : f.cache = ""
    · rw [mainDialer_smart_nocache m f hs hc]
      simp [Call.constructsDialer, Call.usesProxy]
    · rw [mainDialer_smart_cache m f hs hc]
      simp [Call.constructsDialer, Call.usesProxy]

theorem main_of_construction_error (m : Mobileproxy StringList Options Dialer Proxy Err)
    (f : Flags) (interrupt : Bool) {err : Err} (h : (mainDialer m f).2 = .error err) :
    main m f interrupt =
      ((mainDialer m f).1 ++ [.Fatalf "NewStreamDialerFromConfig failed: %v" err], .exit 1) := by
  simp [main, h]

theorem main_of_RunProxy_error (m : Mobileproxy StringList Options Dialer Proxy Err)
    (f : Flags) (interrupt : Bool) {dialer : Dialer} {err : Err}
    (h : (mainDialer m f).2 = .ok dialer) (hr : m.RunProxy f.localAddr dialer = .error err) :
    main m f interrupt =
      ((mainDialer m f).1 ++
        [.RunProxy f.localAddr dialer, .Fatalf "RunProxy failed: %v" err], .exit 1) := by
  simp [main, h, hr]

theorem main_of_started (m : Mobileproxy StringList Options Dialer Proxy Err)
    (f : Flags) (interrupt : Bool) {dialer : Dialer} {proxy : Proxy}
    (h : (mainDialer m f).2 = .ok dialer) (hr : m.RunProxy f.localAddr dialer = .ok proxy) :
    main m f interrupt =
      ((mainDialer m f).1 ++ startedCalls m f interrupt dialer proxy,
       if interrupt then .exit 0 else .blocked) := by
  cases interrupt <;> simp [main, h, hr, startedCalls]

/-- Every run of `main` is the construction step followed by calls none of which
belongs to a construction path. -/
theorem main_calls_after_construction (m : Mobileproxy StringList Options Dialer Proxy Err)
    (f : Flags) (interrupt : Bool) :
    ∃ rest, (main m f interrupt).1 = (mainDialer m f).1 ++ rest ∧
      ∀ c ∈ rest, c.onSmartPath = false ∧ c.constructsDialer = false := by
  cases h : (mainDialer m f).2 with
  | error err =>
    rw [main_of_construction_error m f interrupt h]
    exact ⟨_, rfl, by simp [Call.onSmartPath, Call.constructsDialer]⟩
  | ok dialer =>
    cases hr : m.RunProxy f.localAddr dialer with
    | error err =>
      rw [main_of_RunProxy_error m f interrupt h hr]
      exact ⟨_, rfl, by simp [Call.onSmartPath, Call.constructsDialer]⟩
    | ok proxy =>
      rw [main_of_started m f interrupt h hr]
      refine ⟨_, rfl, ?_⟩
      by_cases hp : f.proxyPath = "" <;> cases interrupt <;>
        simp [startedCalls, hp, Call.onSmartPath, Call.constructsDialer]

end StartupFacts

/-! ## Properties of the cache -/

/-- C1: for every cache state, key `k` and non-empty value `v`, `Get(k)` after
`Put(k, v)` returns `v`, whether or not `k` was present before. -/
theorem Get_Put_nonempty (c : memoryStrategyCache) (k v : String) (hv : v ≠ "") :
    (Get (Put c k v) k).1 = v := by
  have h : (Put c k v).data.lookup k = some v := by
    rw [lookup_Put_self]
    simp [hv]
  exact index_of_lookup_some h

/-- Instance of C1 on a cache where the key already holds another value. -/
theorem Get_Put_nonempty_witness :
    "ss://b" ≠ "" ∧
      (Get (Put (Put MemoryStrategyCache "example.com" "ss://a") "example.com" "ss://b")
        "example.com").1 = "ss://b" :=
  ⟨by decide, Get_Put_nonempty _ "example.com" "ss://b" (by decide)⟩

/-- C2: for every cache state and key `k`, after `Put(k, "")` the call `Get(k)`
returns `""` and `k` is not a key of `data`. -/
theorem Get_Put_empty (c : memoryStrategyCache) (k : String) :
    (Get (Put c k "") k).1 = "" ∧ k ∉ (Put c k "").data := by
  have h : k ∉ (Put c k "").data := by
    rw [Put_data_empty]
    simp [Finmap.mem_erase]
  exact ⟨index_of_not_mem h, h⟩

/-- C3: `Get` returns `""` for every key of a new cache, and for every key that no
`Put` of a sequence of `Put` calls on a new cache uses; `Get` is total: on every
state and key it returns a string and leaves the state as it was. -/
theorem Get_never_set (k : String) :
    (Get MemoryStrategyCache k).1 = "" ∧
    (∀ puts : List (String × String), (∀ p ∈ puts, p.1 ≠ k) →
      (Get (runPuts MemoryStrategyCache puts) k).1 = "") ∧
    (∀ c : memoryStrategyCache, ∃ v : String, Get c k = (v, c)) := by
  have h0 : k ∉ MemoryStrategyCache.data := Finmap.not_mem_empty
  refine ⟨index_of_not_mem h0, ?_, fun c => ⟨index c.data k, rfl⟩⟩
  intro puts hputs
  apply index_of_not_mem
  rw [← Finmap.lookup_eq_none, lookup_runPuts_of_unused puts k hputs]
  exact Finmap.lookup_eq_none.mpr h0

/-- Instance of C3: after two `Put` calls on other keys, one of them differing from
the queried key only in case, `Get` still returns `""`. -/
theorem Get_never_set_witness :
    (∀ p ∈ [("Example.com", "ss://a"), ("example.org", "ss://b")], p.1 ≠ "example.com") ∧
      (Get (runPuts MemoryStrategyCache [("Example.com", "ss://a"), ("example.org", "ss://b")])
        "example.com").1 = "" :=
  ⟨by decide, (Get_never_set "example.com").2.1 _ (by decide)⟩

/-- C4: no key of `data` is mapped to `""` in the new cache; `Put` and `Get` preserve
this; hence it holds after every finite sequence of `Get` and `Put` calls on a new
cache, whatever the keys and values. -/
theorem never_stores_empty :
    NoEmptyValue MemoryStrategyCache ∧
    (∀ (c : memoryStrategyCache) (k v : String), NoEmptyValue c → NoEmptyValue (Put c k v)) ∧
    (∀ (c : memoryStrategyCache) (k : String), NoEmptyValue c → NoEmptyValue (Get c k).2) ∧
    (∀ (calls : List CacheCall) (k : String),
      (runCalls MemoryStrategyCache calls).data.lookup k ≠ some "") :=
  ⟨NoEmptyValue_init,
   fun _ k v h => NoEmptyValue_Put k v h,
   fun _ k h => NoEmptyValue_Get k h,
   fun calls k => NoEmptyValue_runCalls calls _ NoEmptyValue_init k⟩

/-- Instance of C4: the invariant holds after storing under the empty key, reading,
and putting an empty value. -/
theorem never_stores_empty_witness :
    NoEmptyValue MemoryStrategyCache ∧
      NoEmptyValue (Put (Get (Put MemoryStrategyCache "" "ss://a") "").2 "example.com" "") :=
  ⟨never_stores_empty.1,
   never_stores_empty.2.1 _ "example.com" ""
     (never_stores_empty.2.2.1 _ ""
       (never_stores_empty.2.1 _ "" "ss://a" never_stores_empty.1))⟩

/-- C5: in every state reached from a new cache by `Get` and `Put` calls, `Get(k)`
returns `""` exactly when `k` is not a key of `data`. -/
theorem Get_empty_iff_absent (calls : List CacheCall) (k : String) :
    (Get (runCalls MemoryStrategyCache calls) k).1 = "" ↔
      k ∉ (runCalls MemoryStrategyCache calls).data := by
  constructor
  · intro hget hmem
    obtain ⟨v, hv⟩ := Finmap.mem_iff.mp hmem
    have hidx : index (runCalls MemoryStrategyCache calls).data k = v :=
      index_of_lookup_some hv
    have hve : v = "" := hidx.symm.trans hget
    exact NoEmptyValue_runCalls calls _ NoEmptyValue_init k (hve ▸ hv)
  · intro h
    exact index_of_not_mem h

/-- C6: `Put` is idempotent: a second `Put(k, v)` leaves the state reached by the
first one unchanged, for empty and non-empty `v`, so `Get` agrees on every key. -/
theorem Put_idempotent (c : memoryStrategyCache) (k v : String) :
    Put (Put c k v) k v = Put c k v ∧
    ∀ key : String, (Get (Put (Put c k v) k v) key).1 = (Get (Put c k v) key).1 := by
  have h : Put (Put c k v) k v = Put c k v := by
    apply memoryStrategyCache.ext_lookup
    intro key
    by_cases hk : key = k
    · subst hk
      rw [lookup_Put_self, lookup_Put_self]
    · rw [lookup_Put_of_ne _ v hk]
  exact ⟨h, fun key => by rw [h]⟩

/-- C10: `Put(k, v)` leaves every other key `k'` as it was: `Get(k')` returns the same
string and `k'` is a key of `data` afterwards exactly when it was before; and two
`Put` calls on distinct keys give the same state in either order. -/
theorem Put_other_key (c : memoryStrategyCache) (k k' : String) (v : String) (hk : k' ≠ k) :
    (Get (Put c k v) k').1 = (Get c k').1 ∧
    (k' ∈ (Put c k v).data ↔ k' ∈ c.data) ∧
    ∀ v' : String, Put (Put c k v) k' v' = Put (Put c k' v') k v := by
  have hl : (Put c k v).data.lookup k' = c.data.lookup k' := lookup_Put_of_ne c v hk
  refine ⟨?_, ?_, ?_⟩
  · show index (Put c k v).data k' = index c.data k'
    simp only [index, hl]
  · rw [Finmap.mem_iff, Finmap.mem_iff, hl]
  · intro v'
    apply memoryStrategyCache.ext_lookup
    intro key
    by_cases h1 : key = k'
    · subst h1
      rw [lookup_Put_self, lookup_Put_of_ne _ v hk, lookup_Put_self]
    · by_cases h2 : key = k
      · subst h2
        rw [lookup_Put_of_ne _ v' h1, lookup_Put_self, lookup_Put_self]
      · rw [lookup_Put_of_ne _ v' h1, lookup_Put_of_ne _ v h2, lookup_Put_of_ne _ v h2,
          lookup_Put_of_ne _ v' h1]

/-- Instance of C10 for two keys that differ only in case. -/
theorem Put_other_key_witness :
    "Example.com" ≠ "example.com" ∧
      (Get (Put (Put MemoryStrategyCache "Example.com" "ss://a") "example.com" "") "Example.com").1
        = (Get (Put MemoryStrategyCache "Example.com" "ss://a") "Example.com").1 :=
  ⟨by decide, (Put_other_key _ "example.com" "Example.com" "" (by decide)).1⟩

/-! ## Properties of the start-up sequence -/

section StartupProperties

variable {StringList Options Dialer Proxy Err : Type}

/-- C8: `main` makes exactly one dialer-constructing call, chosen by the `-smart` flag
alone.  With `-smart` non-empty the dialer is the result of `NewStreamDialer` on
`NewSmartDialerOptions(NewListFromLines(domain), transport)` (after `SetStrategyCache`
when `-cache` is non-empty) and `NewStreamDialerFromConfig` is never called; with
`-smart` empty the dialer is the result of `NewStreamDialerFromConfig(transport)` and
no call of the smart path is made.  `SetStrategyCache` is called exactly when both
`-smart` and `-cache` are non-empty, and then with `MemoryStrategyCache()`; with
`-smart` empty the value of `-cache` does not change the run. -/
theorem main_selects_one_path (m : Mobileproxy StringList Options Dialer Proxy Err)
    (f : Flags) (interrupt : Bool) :
    ((main m f interrupt).1.filter Call.constructsDialer).length = 1 ∧
    (f.smart ≠ "" →
      Call.NewListFromLines f.domain ∈ (main m f interrupt).1 ∧
      Call.NewSmartDialerOptions (m.NewListFromLines f.domain) f.transport
        ∈ (main m f interrupt).1 ∧
      (f.cache = "" →
        Call.NewStreamDialer (m.NewSmartDialerOptions (m.NewListFromLines f.domain) f.transport)
          ∈ (main m f interrupt).1 ∧
        (mainDialer m f).2 = m.NewStreamDialer
          (m.NewSmartDialerOptions (m.NewListFromLines f.domain) f.transport)) ∧
      (f.cache ≠ "" →
        Call.NewStreamDialer (m.SetStrategyCache
          (m.NewSmartDialerOptions (m.NewListFromLines f.domain) f.transport)
          MemoryStrategyCache) ∈ (main m f interrupt).1 ∧
        (mainDialer m f).2 = m.NewStreamDialer (m.SetStrategyCache
          (m.NewSmartDialerOptions (m.NewListFromLines f.domain) f.transport)
          MemoryStrategyCache)) ∧
      ∀ config, Call.NewStreamDialerFromConfig config ∉ (main m f interrupt).1) ∧
    (f.smart = "" →
      Call.NewStreamDialerFromConfig f.transport ∈ (main m f interrupt).1 ∧
      (mainDialer m f).2 = m.NewStreamDialerFromConfig f.transport ∧
      (∀ c ∈ (main m f interrupt).1, c.onSmartPath = false) ∧
      ∀ cache, main m { f with cache := cache } interrupt = main m f interrupt) ∧
    ((∃ receiver cache, Call.SetStrategyCache receiver cache ∈ (main m f interrupt).1) ↔
      (f.smart ≠ "" ∧ f.cache ≠ "")) ∧
    (∀ receiver cache, Call.SetStrategyCache receiver cache ∈ (main m f interrupt).1 →
      receiver = m.NewSmartDialerOptions (m.NewListFromLines f.domain) f.transport ∧
      cache = MemoryStrategyCache) := by
  obtain ⟨rest, hmain, hrest⟩ := main_calls_after_construction m f interrupt
  have hfilter : rest.filter Call.constructsDialer = [] := by
    rw [List.filter_eq_nil_iff]
    intro c hc
    simp [(hrest c hc).2]
  have hnotSet : ∀ receiver cache, Call.SetStrategyCache receiver cache ∉ rest := by
    intro receiver cache hmem
    have := (hrest _ hmem).1
    simp [Call.onSmartPath] at this
  have hnotDirect : ∀ config, Call.NewStreamDialerFromConfig config ∉ rest := by
    intro config hmem
    have := (hrest _ hmem).2
    simp [Call.constructsDialer] at this
  refine ⟨?_, ?_, ?_, ?_, ?_⟩
  · rw [hmain, List.filter_append, hfilter, List.append_nil]
    exact (mainDialer_calls m f).1
  · intro hs
    by_cases hc : f.cache = ""
    · rw [hmain, mainDialer_smart_nocache m f hs hc]
      refine ⟨by simp, by simp, fun _ => ⟨by simp, rfl⟩, fun h => absurd hc h, ?_⟩
      intro config hmem
      rcases List.mem_append.mp hmem with h | h
      · simp at h
      · exact hnotDirect config h
    · rw [hmain, mainDialer_smart_cache m f hs hc]
      refine ⟨by simp, by simp, fun h => absurd h hc, fun _ => ⟨by simp, rfl⟩, ?_⟩
      intro config hmem
      rcases List.mem_append.mp hmem with h | h
      · simp at h
      · exact hnotDirect config h
  · intro hs
    refine ⟨?_, ?_, ?_, ?_⟩
    · rw [hmain, mainDialer_direct m f hs]
      simp
    · rw [mainDialer_direct m f hs]
    · intro c hmem
      rw [hmain, mainDialer_direct m f hs] at hmem
      rcases List.mem_append.mp hmem with h | h
      · simp only [List.mem_singleton] at h
        subst h
        rfl
      · exact (hrest c h).1
    · intro cache
      have hd : mainDialer m { f with cache := cache } = mainDialer m f := by
        rw [mainDialer_direct m f hs]
        exact mainDialer_direct m { f with cache := cache } hs
      simp only [main, hd]
  · constructor
    · rintro ⟨receiver, cache, hmem⟩
      rw [hmain] at hmem
      rcases List.mem_append.mp hmem with h | h
      · by_cases hs : f.smart = ""
        · rw [mainDialer_direct m f hs] at h
          simp at h
        · by_cases hc : f.cache = ""
          · rw [mainDialer_smart_nocache m f hs hc] at h
            simp at h
          · exact ⟨hs, hc⟩
      · exact absurd h (hnotSet receiver cache)
    · rintro ⟨hs, hc⟩
      refine ⟨m.NewSmartDialerOptions (m.NewListFromLines f.domain) f.transport,
        MemoryStrategyCache, ?_⟩
      rw [hmain, mainDialer_smart_cache m f hs hc]
      simp
  · intro receiver cache hmem
    rw [hmain] at hmem
    rcases List.mem_append.mp hmem with h | h
    · by_cases hs : f.smart = ""
      · rw [mainDialer_direct m f hs] at h
        simp at h
      · by_cases hc : f.cache = ""
        · rw [mainDialer_smart_nocache m f hs hc] at h
          simp at h
        · rw [mainDialer_smart_cache m f hs hc] at h
          simpa using h
    · exact absurd h (hnotSet receiver cache)

/-- Instance of C8: with `-smart` and `-cache` set the run never calls
`NewStreamDialerFromConfig`; with `-smart` empty and `-cache` set it makes no call of
the smart path. -/
theorem main_selects_one_path_witness :
    ((sampleFlags "1" "1" "ss://a").smart ≠ "" ∧
      Call.NewStreamDialerFromConfig "ss://a"
        ∉ (main sampleMobileproxy (sampleFlags "1" "1" "ss://a") true).1) ∧
    ((sampleFlags "" "1" "ss://a").smart = "" ∧
      ∀ c ∈ (main sampleMobileproxy (sampleFlags "" "1" "ss://a") true).1,
        c.onSmartPath = false) :=
  ⟨⟨by decide,
    ((main_selects_one_path sampleMobileproxy (sampleFlags "1" "1" "ss://a") true).2.1
      (by decide)).2.2.2.2 "ss://a"⟩,
   ⟨by decide,
    ((main_selects_one_path sampleMobileproxy (sampleFlags "" "1" "ss://a") true).2.2.1
      (by decide)).2.2.1⟩⟩

/-- C9: a failed construction ends `main` at once.  If the dialer construction of
either path returns an error, `main` exits with status 1 right after `log.Fatalf`,
with no `RunProxy`, `AddURLProxy`, `Address` or `Stop` call; if `RunProxy` returns an
error, `main` exits with status 1 right after `log.Fatalf`, with no `AddURLProxy`,
`Address` or `Stop` call.  Conversely every `AddURLProxy` and `Stop` call is made on
the proxy returned by a successful `RunProxy`, for the dialer returned by a
successful construction. -/
theorem construction_failure_is_fatal (m : Mobileproxy StringList Options Dialer Proxy Err)
    (f : Flags) (interrupt : Bool) :
    (∀ err, (mainDialer m f).2 = .error err →
      (main m f interrupt).2 = .exit 1 ∧
      (main m f interrupt).1 =
        (mainDialer m f).1 ++ [.Fatalf "NewStreamDialerFromConfig failed: %v" err] ∧
      ∀ c ∈ (main m f interrupt).1, c.usesProxy = false) ∧
    (∀ dialer err, (mainDialer m f).2 = .ok dialer →
      m.RunProxy f.localAddr dialer = .error err →
      (main m f interrupt).2 = .exit 1 ∧
      (main m f interrupt).1 =
        (mainDialer m f).1 ++
          [.RunProxy f.localAddr dialer, .Fatalf "RunProxy failed: %v" err] ∧
      ∀ (proxy : Proxy) (path : String) (d : Dialer) (timeoutSeconds : Nat),
        Call.AddURLProxy proxy path d ∉ (main m f interrupt).1 ∧
        Call.Address proxy ∉ (main m f interrupt).1 ∧
        Call.Stop proxy timeoutSeconds ∉ (main m f interrupt).1) ∧
    (∀ (proxy : Proxy) (path : String) (d : Dialer),
      Call.AddURLProxy proxy path d ∈ (main m f interrupt).1 →
      (mainDialer m f).2 = .ok d ∧ m.RunProxy f.localAddr d = .ok proxy) ∧
    (∀ (proxy : Proxy) (timeoutSeconds : Nat),
      Call.Stop proxy timeoutSeconds ∈ (main m f interrupt).1 →
      ∃ d, (mainDialer m f).2 = .ok d ∧ m.RunProxy f.localAddr d = .ok proxy) := by
  have hdial := (mainDialer_calls m f).2
  have hnoAdd : ∀ (proxy : Proxy) (path : String) (d : Dialer),
      Call.AddURLProxy proxy path d ∉ (mainDialer m f).1 := by
    intro proxy path d hmem
    have := hdial _ hmem
    simp [Call.usesProxy] at this
  have hnoAddress : ∀ proxy : Proxy, Call.Address proxy ∉ (mainDialer m f).1 := by
    intro proxy hmem
    have := hdial _ hmem
    simp [Call.usesProxy] at this
  have hnoStop : ∀ (proxy : Proxy) (n : Nat), Call.Stop proxy n ∉ (mainDialer m f).1 := by
    intro proxy n hmem
    have := hdial _ hmem
    simp [Call.usesProxy] at this
  refine ⟨?_, ?_, ?_, ?_⟩
  · intro err h
    rw [main_of_construction_error m f interrupt h]
    refine ⟨rfl, rfl, ?_⟩
    intro c hmem
    rcases List.mem_append.mp hmem with hc | hc
    · exact hdial c hc
    · simp only [List.mem_singleton] at hc
      subst hc
      rfl
  · intro dialer err h hr
    rw [main_of_RunProxy_error m f interrupt h hr]
    refine ⟨rfl, rfl, ?_⟩
    intro proxy path d n
    refine ⟨?_, ?_, ?_⟩
    · intro hmem
      rcases List.mem_append.mp hmem with hc | hc
      · exact hnoAdd _ _ _ hc
      · simp at hc
    · intro hmem
      rcases List.mem_append.mp hmem with hc | hc
      · exact hnoAddress _ hc
      · simp at hc
    · intro hmem
      rcases List.mem_append.mp hmem with hc | hc
      · exact hnoStop _ _ hc
      · simp at hc
  · intro proxy path d hmem
    cases h : (mainDialer m f).2 with
    | error err =>
      rw [main_of_construction_error m f interrupt h] at hmem
      rcases List.mem_append.mp hmem with hc | hc
      · exact absurd hc (hnoAdd _ _ _)
      · simp at hc
    | ok dialer =>
      cases hr : m.RunProxy f.localAddr dialer with
      | error err =>
        rw [main_of_RunProxy_error m f interrupt h hr] at hmem
        rcases List.mem_append.mp hmem with hc | hc
        · exact absurd hc (hnoAdd _ _ _)
        · simp at hc
      | ok started =>
        rw [main_of_started m f interrupt h hr] at hmem
        rcases List.mem_append.mp hmem with hc | hc
        · exact absurd hc (hnoAdd _ _ _)
        · have hpd : proxy = started ∧ d = dialer := by
            by_cases hp : f.proxyPath = "" <;> cases interrupt <;>
              simp [startedCalls, hp] at hc
            all_goals exact ⟨hc.1, hc.2.2⟩
          rw [hpd.1, hpd.2]
          exact ⟨rfl, hr⟩
  · intro proxy n hmem
    cases h : (mainDialer m f).2 with
    | error err =>
      rw [main_of_construction_error m f interrupt h] at hmem
      rcases List.mem_append.mp hmem with hc | hc
      · exact absurd hc (hnoStop _ _)
      · simp at hc
    | ok dialer =>
      cases hr : m.RunProxy f.localAddr dialer with
      | error err =>
        rw [main_of_RunProxy_error m f interrupt h hr] at hmem
        rcases List.mem_append.mp hmem with hc | hc
        · exact absurd hc (hnoStop _ _)
        · simp at hc
      | ok started =>
        rw [main_of_started m f interrupt h hr] at hmem
        rcases List.mem_append.mp hmem with hc | hc
        · exact absurd hc (hnoStop _ _)
        · have hp : proxy = started := by
            by_cases hp : f.proxyPath = "" <;> cases interrupt <;>
              simp [startedCalls, hp] at hc
            all_goals exact hc.1
          rw [hp]
          exact ⟨dialer, rfl, hr⟩

/-- Instance of C9: a smart construction that finds no strategy, and a direct
construction followed by a failed bind, both end the run with status 1. -/
theorem construction_failure_is_fatal_witness :
    ((mainDialer sampleMobileproxy (sampleFlags "1" "1" "")).2 = .error "no viable strategy" ∧
      (main sampleMobileproxy (sampleFlags "1" "1" "") true).2 = .exit 1) ∧
    ((mainDialer sampleMobileproxy { sampleFlags "" "" "ss://a" with localAddr := "" }).2
        = .ok "ss://a" ∧
      sampleMobileproxy.RunProxy "" "ss://a" = .error "bind failed" ∧
      (main sampleMobileproxy { sampleFlags "" "" "ss://a" with localAddr := "" } true).2
        = .exit 1) :=
  ⟨⟨rfl,
    ((construction_failure_is_fatal sampleMobileproxy (sampleFlags "1" "1" "") true).1
      "no viable strategy" rfl).1⟩,
   ⟨rfl, rfl,
    ((construction_failure_is_fatal sampleMobileproxy
      { sampleFlags "" "" "ss://a" with localAddr := "" } true).2.1
      "ss://a" "bind failed" rfl rfl).1⟩⟩

end StartupProperties

end RunMobileproxy
